import Mathlib

/-!
Verification of the Alpha-Dashboard execution analytics engine.

The definitions below are a shallow embedding of the TypeScript source:
* `src/pages/api/projects/[projectID].ts` — the per-record enrichment pass
  (benchmark accumulator, cumulative fill aggregation, VWAP performance bps,
  daily P/L) and the project summary (progress percentages, averages).
* `src/pages/projects/[projectID].tsx` — the scenario simulator
  (`calculateFutureScenario`, `calculateFixedVolumeScenario`, the driving
  effect that builds the projection lists) and the per-row performance fee.

JavaScript numbers are modelled as exact rationals (`ℚ`); nullable values as
`Option ℚ`.  The `Side` column is typed `'BUY' | 'SELL'` in `lib/db.ts`, so it
is a two-constructor inductive.
-/

namespace AlphaDashboard

/-- Side of the working order, `'BUY' | 'SELL'` in `lib/db.ts`. -/
inductive Side where
  | BUY : Side
  | SELL : Side
deriving DecidableEq, Repr

/-- One raw `stock_records` row as read from the database, before enrichment.
Numeric columns may be null (`typeof x === 'number'` guards in the source). -/
structure RawStockRecord where
  date : String
  filledQty : Option ℚ
  filledAveragePrice : Option ℚ
  allDayVWAP : Option ℚ
  stockCycle : String
  projectID : String
deriving DecidableEq, Repr

/-- State of the benchmark accumulator: the keys of the
`distinctDailyVWAPsEncountered` map, `sumOfDistinctVWAPsForBenchmark` and
`countOfDistinctDaysForBenchmark`. -/
structure BenchState where
  seenDates : List String
  sum : ℚ
  count : ℕ
deriving DecidableEq, Repr

/-- Mutable accumulator state of the enrichment pass. -/
structure ProcState where
  bench : BenchState
  cumAmount : ℚ
  cumQty : ℚ
deriving DecidableEq, Repr

/-- An enriched stock record (`StockRecord` in `lib/db.ts`). -/
structure StockRecord where
  stockCycle : String
  projectID : String
  filledQty : ℚ
  filledAveragePrice : ℚ
  allDayVWAP : ℚ
  date : String
  cumulativeBenchmarkVWAP : Option ℚ
  vwapPerformanceBps : Option ℚ
  cumulativeFilledAmount : ℚ
  cumulativeFilledQty : ℚ
  dailyPL : Option ℚ
deriving DecidableEq, Repr

/-- Project configuration fields consumed by the engine (`Project` in
`lib/db.ts`). -/
structure ProjectConfig where
  side : Side
  totalShares : Option ℚ
  totalAmount : Option ℚ
  businessDays : Option ℚ
  earliestDayCount : Option ℚ
  performanceFeeRatePct : Option ℚ
  fixedFeeRatePct : Option ℚ
deriving DecidableEq, Repr

/-- The benchmark-accumulator step, `[projectID].ts` lines 50-54:
`if (!distinctDailyVWAPsEncountered.has(recordDate) && recordAllDayVWAP !== null)`
insert the date, add the VWAP to the running sum and bump the distinct-day
count; otherwise leave the state unchanged. -/
def observeBenchmark (st : BenchState) (date : String) (vwap : Option ℚ) : BenchState :=
  if date ∈ st.seenDates then st
  else
    match vwap with
    | some v => ⟨date :: st.seenDates, st.sum + v, st.count + 1⟩
    | none => st

/-- The `currentProjectBenchmarkVWAP` computation, lines 56-58: `sum / count` when the distinct
day count is positive, else null. -/
def mkMean (b : BenchState) : Option ℚ :=
  if 0 < b.count then some (b.sum / (b.count : ℚ)) else none

/-- The BUY / SELL sign convention shared by `dailyPL` (lines 88-94) and the
scenario `finalPL` (tsx lines 246-251): BUY is `benchmark×qty − amount`,
SELL is `amount − benchmark×qty`. -/
def plFormula (side : Side) (benchmark qty amount : ℚ) : ℚ :=
  match side with
  | Side.BUY => benchmark * qty - amount
  | Side.SELL => amount - benchmark * qty

/-- The `vwapPerfBps` computation, lines 60-67: requires fill price and day VWAP non-null and
the day VWAP nonzero, then dispatches on side. -/
def vwapPerfBps (side : Side) (filledAveragePrice allDayVWAP : Option ℚ) : Option ℚ :=
  match filledAveragePrice, allDayVWAP with
  | some p, some vwap =>
    if vwap ≠ 0 then
      match side with
      | Side.BUY => some ((vwap - p) / vwap * 10000)
      | Side.SELL => some ((p - vwap) / vwap * 10000)
    else none
  | _, _ => none

/-- The `dailyFilledAmount` computation, lines 69-72: `qty * price` when both are present,
otherwise 0 for that record. -/
def dailyFilledAmount (r : RawStockRecord) : ℚ :=
  match r.filledQty, r.filledAveragePrice with
  | some q, some p => q * p
  | _, _ => 0

/-- The body of the `rawStockRecords.map` callback, lines 42-112: observe the
benchmark, update the cumulative fills, and build the enriched record.  The
`dailyPL` branch structure mirrors lines 83-97: the formula fires when the
cumulative benchmark is non-null and the cumulative quantity is positive
(the cumulative amount is always a number and the side is exhaustive);
otherwise 0 when the cumulative quantity is zero; otherwise null. -/
def processRecord (side : Side) (st : ProcState) (r : RawStockRecord) :
    ProcState × StockRecord :=
  let bench := observeBenchmark st.bench r.date r.allDayVWAP
  let currentProjectBenchmarkVWAP := mkMean bench
  let perfBps := vwapPerfBps side r.filledAveragePrice r.allDayVWAP
  let cumAmount := st.cumAmount + dailyFilledAmount r
  let cumQty := st.cumQty + r.filledQty.getD 0
  let dailyPL : Option ℚ :=
    match currentProjectBenchmarkVWAP with
    | some bm =>
      if 0 < cumQty then some (plFormula side bm cumQty cumAmount)
      else if cumQty = 0 then some 0
      else none
    | none =>
      if cumQty = 0 then some 0 else none
  (⟨bench, cumAmount, cumQty⟩,
    { stockCycle := r.stockCycle
      projectID := r.projectID
      filledQty := r.filledQty.getD 0
      filledAveragePrice := r.filledAveragePrice.getD 0
      allDayVWAP := r.allDayVWAP.getD 0
      date := r.date
      cumulativeBenchmarkVWAP := currentProjectBenchmarkVWAP
      vwapPerformanceBps := perfBps
      cumulativeFilledAmount := cumAmount
      cumulativeFilledQty := cumQty
      dailyPL := dailyPL })

/-- Initial benchmark-accumulator state (empty map, zero sum and count). -/
def initBench : BenchState := ⟨[], 0, 0⟩

/-- Initial state of the enrichment pass, lines 36-40. -/
def initState : ProcState := ⟨initBench, 0, 0⟩

/-- The state-only component of one enrichment step. -/
def stepState (side : Side) (st : ProcState) (r : RawStockRecord) : ProcState :=
  (processRecord side st r).1

/-- The left-to-right enrichment pass over the whole record list
(`processedStockRecords`). -/
def processAll (side : Side) (st : ProcState) : List RawStockRecord → List StockRecord
  | [] => []
  | r :: rs => (processRecord side st r).2 :: processAll side (stepState side st r) rs

/-- The accumulator state after processing a list of records. -/
def procFold (side : Side) (st : ProcState) (rs : List RawStockRecord) : ProcState :=
  rs.foldl (stepState side) st

/-- The benchmark-accumulator state after a list of records. -/
def foldBench (b : BenchState) (rs : List RawStockRecord) : BenchState :=
  rs.foldl (fun b r => observeBenchmark b r.date r.allDayVWAP) b

/-- The enriched record at index `i` of the pipeline output (none when out of
range). -/
def enrichAt (side : Side) (rs : List RawStockRecord) (i : ℕ) : Option StockRecord :=
  (processAll side initState rs).get? i

/-- The benchmark samples collected by the accumulator over a record list,
starting from a given set of already-sampled dates: a record contributes its
day VWAP exactly when its date has no sample yet and the VWAP is non-null
(mirrors the insertion condition of lines 50-54, including that a zero VWAP is
a sample and that a date whose occurrence has a null VWAP is not
marked as seen). -/
def benchSamples : List String → List RawStockRecord → List ℚ
  | _, [] => []
  | seen, r :: rs =>
    if r.date ∈ seen then benchSamples seen rs
    else
      match r.allDayVWAP with
      | some v => v :: benchSamples (r.date :: seen) rs
      | none => benchSamples seen rs

/-- Simple mean of the benchmark samples of a record list, null when there are
none. -/
def samplesMean (rs : List RawStockRecord) : Option ℚ :=
  let l := benchSamples [] rs
  if 0 < l.length then some (l.sum / (l.length : ℚ)) else none

/-- Modelled from the spec: the benchmark-sample policy asserted by claim C2,
under which a record whose day benchmark is null OR ZERO contributes no
sample and the day is not counted. -/
def claimSamplesC2 : List String → List RawStockRecord → List ℚ
  | _, [] => []
  | seen, r :: rs =>
    match r.allDayVWAP with
    | some v =>
      if v ≠ 0 ∧ r.date ∉ seen then v :: claimSamplesC2 (r.date :: seen) rs
      else claimSamplesC2 seen rs
    | none => claimSamplesC2 seen rs

/-- Modelled from the spec: the benchmark mean asserted by claim C2
(null-or-zero day benchmarks excluded). -/
def claimBenchmarkC2 (rs : List RawStockRecord) : Option ℚ :=
  let l := claimSamplesC2 [] rs
  if 0 < l.length then some (l.sum / (l.length : ℚ)) else none

/-- Modelled from the spec: the benchmark-sample policy asserted by claim C3,
under which the FIRST occurrence of a date determines that day's contribution
(a first occurrence with a null benchmark leaves the day without a sample, and
later duplicates can never add one). -/
def firstOccSamples : List String → List RawStockRecord → List ℚ
  | _, [] => []
  | seen, r :: rs =>
    if r.date ∈ seen then firstOccSamples seen rs
    else
      match r.allDayVWAP with
      | some v => v :: firstOccSamples (r.date :: seen) rs
      | none => firstOccSamples (r.date :: seen) rs

/-- Modelled from the spec: the benchmark mean under claim C3's
first-occurrence-wins policy. -/
def firstOccBenchmark (rs : List RawStockRecord) : Option ℚ :=
  let l := firstOccSamples [] rs
  if 0 < l.length then some (l.sum / (l.length : ℚ)) else none

/-- The clamp `Math.min(100, Math.max(0, x))` of lines 121 and 131. -/
def clampPct (x : ℚ) : ℚ := min 100 (max 0 x)

/-- The `parseFloat(x.toFixed(2))` step: rounding to two decimal places at the summary
boundary, lines 150-151. -/
def round2 (x : ℚ) : ℚ := ((round (x * 100) : ℤ) : ℚ) / 100

/-- The project summary assembled at lines 114-158. -/
structure ProjectSummary where
  daysProgress : ℚ
  executionProgress : ℚ
  totalFilledQty : ℚ
  totalFilledAmount : ℚ
  tradedDaysCount : ℕ
  benchmarkVWAP : Option ℚ
  averageExecutionPrice : Option ℚ
  averageDailyShares : Option ℚ
deriving DecidableEq, Repr

/-- Summary construction, `[projectID].ts` lines 114-158:
`daysProgress` is clamped `tradedDaysCount / Business_Days × 100` when
`Business_Days` is present and positive, else 0; `executionProgress`
dispatches on side and target when any record exists (clamped), else stays 0;
both are rounded to two decimals at the boundary. -/
def buildSummary (projectData : ProjectConfig) (rs : List RawStockRecord) : ProjectSummary :=
  let processed := processAll projectData.side initState rs
  let st := procFold projectData.side initState rs
  let finalTotalProjectFilledQty := st.cumQty
  let finalTotalProjectFilledAmount := st.cumAmount
  let currentTradedDaysCount := st.bench.seenDates.length
  let daysProgress : ℚ :=
    match projectData.businessDays with
    | some bd => if 0 < bd then clampPct ((currentTradedDaysCount : ℚ) / bd * 100) else 0
    | none => 0
  let executionProgress : ℚ :=
    if 0 < processed.length then
      clampPct
        (match projectData.side with
         | Side.SELL =>
           match projectData.totalShares with
           | some ts => if 0 < ts then finalTotalProjectFilledQty / ts * 100 else 0
           | none => 0
         | Side.BUY =>
           match projectData.totalAmount with
           | some ta => if 0 < ta then finalTotalProjectFilledAmount / ta * 100 else 0
           | none => 0)
    else 0
  { daysProgress := round2 daysProgress
    executionProgress := round2 executionProgress
    totalFilledQty := finalTotalProjectFilledQty
    totalFilledAmount := finalTotalProjectFilledAmount
    tradedDaysCount := currentTradedDaysCount
    benchmarkVWAP := mkMean st.bench
    averageExecutionPrice :=
      if 0 < finalTotalProjectFilledQty
      then some (finalTotalProjectFilledAmount / finalTotalProjectFilledQty) else none
    averageDailyShares :=
      if 0 < currentTradedDaysCount
      then some (finalTotalProjectFilledQty / (currentTradedDaysCount : ℚ)) else none }

/-- Modelled from the spec: the side-dependent execution-progress dispatch as
claim C6 words it — SELL with positive `totalShares` uses
`totalFilledQty/totalShares`, BUY with positive `totalAmount` uses
`totalFilledAmount/totalAmount`, otherwise 0, clamped into [0,100]. -/
def specExecutionDispatch (projectData : ProjectConfig) (totQty totAmt : ℚ) : ℚ :=
  match projectData.side with
  | Side.SELL =>
    match projectData.totalShares with
    | some ts => if 0 < ts then clampPct (totQty / ts * 100) else 0
    | none => 0
  | Side.BUY =>
    match projectData.totalAmount with
    | some ta => if 0 < ta then clampPct (totAmt / ta * 100) else 0
    | none => 0

/-- The `calculatePLInBasisPoints` helper, tsx lines 207-210: null when any operand is
null or the benchmark or share count is zero, else `pl / (benchmark × shares)
× 10000`. -/
def calculatePLInBasisPoints (pl benchmark totalShares : Option ℚ) : Option ℚ :=
  match pl, benchmark, totalShares with
  | some pl, some b, some ts =>
    if b = 0 ∨ ts = 0 then none else some (pl / (b * ts) * 10000)
  | _, _, _ => none

/-- The `calculatePriceVsBenchmarkPct` helper, tsx lines 212-215. -/
def calculatePriceVsBenchmarkPct (price benchmark : Option ℚ) : Option ℚ :=
  match price, benchmark with
  | some p, some b => if b = 0 then none else some ((p / b - 1) * 100)
  | _, _ => none

/-- Mutable state of the spread-to-completion simulation loop, tsx lines
228-241: cumulative shares, cumulative amount, the benchmark price list, and
the shares still to distribute. -/
structure SimState where
  shares : ℚ
  amount : ℚ
  vwaps : List ℚ
  remaining : ℚ
deriving DecidableEq, Repr

/-- The day loop of `calculateFutureScenario`, tsx lines 234-241: each day
trades `min(sharesPerDay, remaining)` shares at `futurePrice`, appends
`futurePrice` to the benchmark list, and stops early when nothing remains. -/
def futureLoop (futurePrice sharesPerDay : ℚ) : ℕ → SimState → SimState
  | 0, st => st
  | n + 1, st =>
    let sharesForThisDay := min sharesPerDay st.remaining
    if sharesForThisDay ≤ 0 then st
    else
      futureLoop futurePrice sharesPerDay n
        ⟨st.shares + sharesForThisDay, st.amount + futurePrice * sharesForThisDay,
         st.vwaps ++ [futurePrice], st.remaining - sharesForThisDay⟩

/-- Output of the spread-to-completion scenario, the `FutureScenario`
interface of the tsx (the UI-only `description` string is omitted). -/
structure FutureScenario where
  days : ℤ
  sharesPerDay : ℚ
  finalBenchmark : ℚ
  finalPL : ℚ
  finalPLBps : Option ℚ
  priceVsBenchmarkPct : Option ℚ
deriving DecidableEq, Repr

/-- The `calculateFutureScenario` function, tsx lines 217-258: guard out non-positive
inputs, filter nulls from the historical benchmark list, take
`sharesPerDay = ceil(futureSharesLeft / futureDaysTarget)`, run the day loop,
and derive benchmark, P/L, bps and price-vs-benchmark. -/
def calculateFutureScenario (side : Side) (historicalDailyVwaps : List (Option ℚ))
    (totalFilledQty totalFilledAmount : Option ℚ)
    (futurePrice futureSharesLeft : ℚ) (futureDaysTarget : ℤ) : Option FutureScenario :=
  if futurePrice ≤ 0 ∨ futureSharesLeft ≤ 0 ∨ futureDaysTarget ≤ 0 then none
  else
    let validHistoricalVwaps := historicalDailyVwaps.filterMap id
    let sharesPerDay : ℚ := ((⌈futureSharesLeft / (futureDaysTarget : ℚ)⌉ : ℤ) : ℚ)
    let fin := futureLoop futurePrice sharesPerDay futureDaysTarget.toNat
      ⟨totalFilledQty.getD 0, totalFilledAmount.getD 0, validHistoricalVwaps, futureSharesLeft⟩
    let finalBenchmark :=
      if 0 < fin.vwaps.length then fin.vwaps.sum / (fin.vwaps.length : ℚ) else futurePrice
    let finalPL := plFormula side finalBenchmark fin.shares fin.amount
    some
      { days := futureDaysTarget
        sharesPerDay := sharesPerDay
        finalBenchmark := finalBenchmark
        finalPL := finalPL
        finalPLBps := calculatePLInBasisPoints (some finalPL) (some finalBenchmark) (some fin.shares)
        priceVsBenchmarkPct := calculatePriceVsBenchmarkPct (some futurePrice) (some finalBenchmark) }

/-- The day loop of `calculateFixedVolumeScenario`, tsx lines 275-279: every
day trades the full daily volume and appends `futurePrice` once. -/
def fixedLoop (futurePrice dailySharesToTrade : ℚ) : ℕ → ℚ × ℚ × List ℚ → ℚ × ℚ × List ℚ
  | 0, acc => acc
  | n + 1, (shares, amount, vwaps) =>
    fixedLoop futurePrice dailySharesToTrade n
      (shares + dailySharesToTrade, amount + futurePrice * dailySharesToTrade,
       vwaps ++ [futurePrice])

/-- Output of the fixed-daily-volume scenario, the `FixedVolumeScenario`
interface of the tsx. -/
structure FixedVolumeScenario where
  day : ℤ
  totalSharesTraded : ℚ
  finalBenchmark : ℚ
  finalPL : ℚ
  finalPLBps : Option ℚ
  priceVsBenchmarkPct : Option ℚ
deriving DecidableEq, Repr

/-- The `calculateFixedVolumeScenario` function, tsx lines 260-303. -/
def calculateFixedVolumeScenario (side : Side) (historicalDailyVwaps : List (Option ℚ))
    (totalFilledQty totalFilledAmount : Option ℚ)
    (futurePrice dailySharesToTrade : ℚ) (numberOfDays : ℤ) : Option FixedVolumeScenario :=
  if futurePrice ≤ 0 ∨ dailySharesToTrade ≤ 0 ∨ numberOfDays ≤ 0 then none
  else
    let validHistoricalVwaps := historicalDailyVwaps.filterMap id
    let fin := fixedLoop futurePrice dailySharesToTrade numberOfDays.toNat
      (totalFilledQty.getD 0, totalFilledAmount.getD 0, validHistoricalVwaps)
    let finalBenchmark :=
      if 0 < fin.2.2.length then fin.2.2.sum / (fin.2.2.length : ℚ) else futurePrice
    let finalPL := plFormula side finalBenchmark fin.1 fin.2.1
    some
      { day := numberOfDays
        totalSharesTraded := fin.1
        finalBenchmark := finalBenchmark
        finalPL := finalPL
        finalPLBps := calculatePLInBasisPoints (some finalPL) (some finalBenchmark) (some fin.1)
        priceVsBenchmarkPct := calculatePriceVsBenchmarkPct (some futurePrice) (some finalBenchmark) }

/-- The scenario-building effect of tsx lines 306-336, spread-to-completion
half: when all three parsed inputs are numbers and positive, one scenario per
day count from 1 to the horizon (null results skipped); otherwise the empty
list.  `none` input models a `NaN` parse result. -/
def buildFutureScenarios (side : Side) (historicalDailyVwaps : List (Option ℚ))
    (totalFilledQty totalFilledAmount : Option ℚ)
    (numFuturePrice numSimShares : Option ℚ) (numMaxDays : Option ℤ) : List FutureScenario :=
  match numFuturePrice, numSimShares, numMaxDays with
  | some p, some s, some d =>
    if 0 < p ∧ 0 < s ∧ 0 < d then
      (List.range d.toNat).filterMap fun i =>
        calculateFutureScenario side historicalDailyVwaps totalFilledQty totalFilledAmount
          p s ((i : ℤ) + 1)
    else []
  | _, _, _ => []

/-- The scenario-building effect of tsx lines 306-336, fixed-daily-volume
half. -/
def buildFixedVolumeScenarios (side : Side) (historicalDailyVwaps : List (Option ℚ))
    (totalFilledQty totalFilledAmount : Option ℚ)
    (numFuturePrice numSimShares : Option ℚ) (numMaxDays : Option ℤ) : List FixedVolumeScenario :=
  match numFuturePrice, numSimShares, numMaxDays with
  | some p, some s, some d =>
    if 0 < p ∧ 0 < s ∧ 0 < d then
      (List.range d.toNat).filterMap fun i =>
        calculateFixedVolumeScenario side historicalDailyVwaps totalFilledQty totalFilledAmount
          p s ((i : ℤ) + 1)
    else []
  | _, _, _ => []

/-- The per-row performance fee of the history table, tsx lines 956-961: zero
unless the row P/L is non-null and strictly positive and the fee rate is
present, in which case `dailyPL × feeRate / 100`. -/
def performanceFeeAmount (dailyPL feeRate : Option ℚ) : ℚ :=
  match dailyPL, feeRate with
  | some pl, some rate => if 0 < pl then pl * (rate / 100) else 0
  | _, _ => 0

/-- Sample record: one busy day with fills and a benchmark. -/
def recA : RawStockRecord := ⟨"2024/01/01", some 10, some 100, some 100, "C1", "P1"⟩

/-- Sample record: a second day with fills and a benchmark. -/
def recB : RawStockRecord := ⟨"2024/01/02", some 5, some 102, some 101, "C1", "P1"⟩

/-- Sample record: a day whose benchmark VWAP is exactly zero. -/
def recZeroVwap : RawStockRecord := ⟨"2024/01/01", some 1, some 10, some 0, "C1", "P1"⟩

/-- Sample record: first occurrence of a duplicated date, with a null
benchmark. -/
def recDupNull : RawStockRecord := ⟨"2024/01/01", some 1, some 2, none, "C1", "P1"⟩

/-- Sample record: second occurrence of the duplicated date, with benchmark 5. -/
def recDupVal : RawStockRecord := ⟨"2024/01/01", some 3, some 4, some 5, "C1", "P1"⟩

/-- Sample configuration: SELL order with a 10-share target and no
business-day horizon. -/
def cfgSell10 : ProjectConfig := ⟨Side.SELL, some 10, none, none, none, none, none⟩

/-! ## Infrastructure lemmas about the enrichment pass -/

theorem processAll_length (side : Side) (rs : List RawStockRecord) :
    ∀ st : ProcState, (processAll side st rs).length = rs.length := by
  induction rs with
  | nil => intro st; rfl
  | cons r rs ih => intro st; simp [processAll, ih]

theorem processAll_get? (side : Side) (rs : List RawStockRecord) :
    ∀ (st : ProcState) (i : ℕ),
      (processAll side st rs).get? i =
        (rs.get? i).map fun r => (processRecord side (procFold side st (rs.take i)) r).2 := by
  induction rs with
  | nil => intro st i; cases i <;> rfl
  | cons r rs ih =>
    intro st i
    cases i with
    | zero => rfl
    | succ n => simpa [processAll, List.take_succ_cons, procFold] using ih (stepState side st r) n

theorem enrichAt_eq_some {side : Side} {rs : List RawStockRecord} {i : ℕ} {e : StockRecord}
    (he : enrichAt side rs i = some e) :
    ∃ r, rs.get? i = some r ∧
      e = (processRecord side (procFold side initState (rs.take i)) r).2 := by
  rw [enrichAt, processAll_get?] at he
  cases hr : rs.get? i with
  | none => rw [hr] at he; exact absurd he (by simp)
  | some r =>
    rw [hr] at he
    exact ⟨r, rfl, by simpa using he.symm⟩

theorem stepState_cumQty (side : Side) (st : ProcState) (r : RawStockRecord) :
    (stepState side st r).cumQty = st.cumQty + r.filledQty.getD 0 := rfl

theorem stepState_cumAmount (side : Side) (st : ProcState) (r : RawStockRecord) :
    (stepState side st r).cumAmount = st.cumAmount + dailyFilledAmount r := rfl

theorem stepState_bench (side : Side) (st : ProcState) (r : RawStockRecord) :
    (stepState side st r).bench = observeBenchmark st.bench r.date r.allDayVWAP := rfl

theorem procFold_cumQty (side : Side) (rs : List RawStockRecord) :
    ∀ st : ProcState,
      (procFold side st rs).cumQty = st.cumQty + (rs.map fun r => r.filledQty.getD 0).sum := by
  induction rs with
  | nil => intro st; simp [procFold]
  | cons r rs ih =>
    intro st
    simp only [procFold, List.foldl_cons, List.map_cons, List.sum_cons]
    rw [show List.foldl (stepState side) (stepState side st r) rs =
          procFold side (stepState side st r) rs from rfl, ih, stepState_cumQty]
    ring

theorem procFold_cumAmount (side : Side) (rs : List RawStockRecord) :
    ∀ st : ProcState,
      (procFold side st rs).cumAmount = st.cumAmount + (rs.map dailyFilledAmount).sum := by
  induction rs with
  | nil => intro st; simp [procFold]
  | cons r rs ih =>
    intro st
    simp only [procFold, List.foldl_cons, List.map_cons, List.sum_cons]
    rw [show List.foldl (stepState side) (stepState side st r) rs =
          procFold side (stepState side st r) rs from rfl, ih, stepState_cumAmount]
    ring

theorem procFold_bench (side : Side) (rs : List RawStockRecord) :
    ∀ st : ProcState, (procFold side st rs).bench = foldBench st.bench rs := by
  induction rs with
  | nil => intro st; rfl
  | cons r rs ih =>
    intro st
    simp only [procFold, foldBench, List.foldl_cons]
    exact ih (stepState side st r)

theorem foldBench_append (b : BenchState) (l₁ l₂ : List RawStockRecord) :
    foldBench b (l₁ ++ l₂) = foldBench (foldBench b l₁) l₂ := by
  simp [foldBench, List.foldl_append]

theorem foldBench_sum_count (rs : List RawStockRecord) :
    ∀ b : BenchState,
      (foldBench b rs).sum = b.sum + (benchSamples b.seenDates rs).sum ∧
      (foldBench b rs).count = b.count + (benchSamples b.seenDates rs).length := by
  induction rs with
  | nil => intro b; simp [foldBench, benchSamples]
  | cons r rs ih =>
    intro b
    rw [show foldBench b (r :: rs) =
        foldBench (observeBenchmark b r.date r.allDayVWAP) rs from rfl]
    by_cases hseen : r.date ∈ b.seenDates
    · have hob : observeBenchmark b r.date r.allDayVWAP = b := by
        simp [observeBenchmark, hseen]
      have hs : benchSamples b.seenDates (r :: rs) = benchSamples b.seenDates rs := by
        simp [benchSamples, hseen]
      rw [hob, hs]
      exact ih b
    · cases hv : r.allDayVWAP with
      | none =>
        have hob : observeBenchmark b r.date none = b := by
          simp [observeBenchmark, hseen]
        have hs : benchSamples b.seenDates (r :: rs) = benchSamples b.seenDates rs := by
          simp [benchSamples, hseen, hv]
        rw [hob, hs]
        exact ih b
      | some v =>
        have hob : observeBenchmark b r.date (some v) =
            ⟨r.date :: b.seenDates, b.sum + v, b.count + 1⟩ := by
          simp [observeBenchmark, hseen]
        have hs : benchSamples b.seenDates (r :: rs) =
            v :: benchSamples (r.date :: b.seenDates) rs := by
          simp [benchSamples, hseen, hv]
        rw [hob, hs]
        have h := ih ⟨r.date :: b.seenDates, b.sum + v, b.count + 1⟩
        constructor
        · rw [h.1]; simp; ring
        · rw [h.2]; simp; ring

theorem foldBench_count_le (b : BenchState) (rs : List RawStockRecord) :
    b.count ≤ (foldBench b rs).count := by
  rw [(foldBench_sum_count rs b).2]
  exact Nat.le_add_right _ _

/-- The benchmark stored at index `i` is the mean of the accumulator state
after the `(i+1)`-record prefix. -/
theorem enrichAt_benchmark {side : Side} {rs : List RawStockRecord} {i : ℕ} {e : StockRecord}
    (he : enrichAt side rs i = some e) :
    e.cumulativeBenchmarkVWAP = mkMean (foldBench initBench (rs.take (i + 1))) := by
  obtain ⟨r, hr, hev⟩ := enrichAt_eq_some he
  have htake : rs.take (i + 1) = rs.take i ++ [r] := by
    rw [List.take_succ, ← List.get?_eq_getElem?, hr]; rfl
  rw [hev, htake, foldBench_append]
  show mkMean (observeBenchmark (procFold side initState (rs.take i)).bench r.date r.allDayVWAP) = _
  rw [procFold_bench]
  rfl

/-- The cumulative fills stored at index `i` are the prefix sums through that
record inclusive. -/
theorem enrichAt_cumulative {side : Side} {rs : List RawStockRecord} {i : ℕ} {e : StockRecord}
    (he : enrichAt side rs i = some e) :
    e.cumulativeFilledQty = ((rs.take (i + 1)).map fun r => r.filledQty.getD 0).sum ∧
    e.cumulativeFilledAmount = ((rs.take (i + 1)).map dailyFilledAmount).sum := by
  obtain ⟨r, hr, hev⟩ := enrichAt_eq_some he
  have htake : rs.take (i + 1) = rs.take i ++ [r] := by
    rw [List.take_succ, ← List.get?_eq_getElem?, hr]; rfl
  have hq : e.cumulativeFilledQty = (procFold side initState (rs.take i)).cumQty +
      r.filledQty.getD 0 := by rw [hev]; rfl
  have ha : e.cumulativeFilledAmount = (procFold side initState (rs.take i)).cumAmount +
      dailyFilledAmount r := by rw [hev]; rfl
  constructor
  · rw [hq, procFold_cumQty, htake]
    simp [initState]
  · rw [ha, procFold_cumAmount, htake]
    simp [initState]

theorem mkMean_foldBench_init (l : List RawStockRecord) :
    mkMean (foldBench initBench l) = samplesMean l := by
  have h := foldBench_sum_count l initBench
  have hsum : (foldBench initBench l).sum = (benchSamples [] l).sum := by
    simpa [initBench] using h.1
  have hcount : (foldBench initBench l).count = (benchSamples [] l).length := by
    simpa [initBench] using h.2
  rw [mkMean, samplesMean, hsum, hcount]

theorem dailyFilledAmount_nonneg (r : RawStockRecord)
    (hq : 0 ≤ r.filledQty.getD 0) (hp : 0 ≤ r.filledAveragePrice.getD 0) :
    0 ≤ dailyFilledAmount r := by
  rw [dailyFilledAmount]
  cases hq2 : r.filledQty with
  | none => simp
  | some q =>
    cases hp2 : r.filledAveragePrice with
    | none => simp
    | some p =>
      have h1 : (0:ℚ) ≤ q := by simpa [hq2] using hq
      have h2 : (0:ℚ) ≤ p := by simpa [hp2] using hp
      simpa using mul_nonneg h1 h2

theorem processRecord_fields (side : Side) (st : ProcState) (r : RawStockRecord) :
    (processRecord side st r).2.cumulativeFilledQty = st.cumQty + r.filledQty.getD 0 ∧
    (processRecord side st r).2.cumulativeFilledAmount = st.cumAmount + dailyFilledAmount r ∧
    (processRecord side st r).2.cumulativeBenchmarkVWAP
      = mkMean (observeBenchmark st.bench r.date r.allDayVWAP) ∧
    (processRecord side st r).2.dailyPL
      = (match mkMean (observeBenchmark st.bench r.date r.allDayVWAP) with
         | some bm =>
           if 0 < st.cumQty + r.filledQty.getD 0
           then some (plFormula side bm (st.cumQty + r.filledQty.getD 0)
             (st.cumAmount + dailyFilledAmount r))
           else if st.cumQty + r.filledQty.getD 0 = 0 then some 0 else none
         | none => if st.cumQty + r.filledQty.getD 0 = 0 then some 0 else none) :=
  ⟨rfl, rfl, rfl, rfl⟩

/-! ## Claim theorems -/

/-- Claim C1: each enriched record's `dailyPL` is 0 whenever its cumulative
filled quantity is 0, null whenever its cumulative benchmark is null while
its cumulative quantity is positive, and otherwise the side-signed
`benchmark × qty − amount` / `amount − benchmark × qty` formula evaluated at
the record's own (current) cumulative benchmark, quantity and amount. -/
theorem claim_C1_dailyPL (side : Side) (rs : List RawStockRecord) (i : ℕ) (e : StockRecord)
    (he : enrichAt side rs i = some e) :
    (e.cumulativeFilledQty = 0 → e.dailyPL = some 0) ∧
    (e.cumulativeBenchmarkVWAP = none → 0 < e.cumulativeFilledQty → e.dailyPL = none) ∧
    (∀ bm : ℚ, e.cumulativeBenchmarkVWAP = some bm → 0 < e.cumulativeFilledQty →
      e.dailyPL = some (plFormula side bm e.cumulativeFilledQty e.cumulativeFilledAmount)) := by
  obtain ⟨r, _, hev⟩ := enrichAt_eq_some he
  subst hev
  set st := procFold side initState (rs.take i) with hst
  obtain ⟨hq, ha, hb, hpl⟩ := processRecord_fields side st r
  refine ⟨?_, ?_, ?_⟩
  · intro hq0
    rw [hq] at hq0
    rw [hpl]
    cases mkMean (observeBenchmark st.bench r.date r.allDayVWAP) with
    | none => simp [hq0]
    | some bm => simp [hq0]
  · intro hbm hqpos
    rw [hb] at hbm
    rw [hq] at hqpos
    rw [hpl, hbm]
    simp [ne_of_gt hqpos]
  · intro bm hbm hqpos
    rw [hb] at hbm
    rw [hq] at hqpos
    rw [hpl, hbm, hq, ha]
    simp [hqpos]

/-- Claim C1 witness: on a single BUY record filling 10 shares at 100 against
a day VWAP of 100, the dailyPL is the formula value. -/
theorem claim_C1_dailyPL_witness :
    (processRecord Side.BUY initState recA).2.dailyPL
      = some (plFormula Side.BUY 100
          (processRecord Side.BUY initState recA).2.cumulativeFilledQty
          (processRecord Side.BUY initState recA).2.cumulativeFilledAmount) :=
  (claim_C1_dailyPL Side.BUY [recA] 0 _ rfl).2.2 100
    (by
      rw [(processRecord_fields Side.BUY initState recA).2.2.1]
      simp [mkMean, observeBenchmark, initState, initBench, recA])
    (by
      rw [(processRecord_fields Side.BUY initState recA).1]
      norm_num [initState, recA])

/-- Claim C2 as amended: the cumulative benchmark VWAP at index `i` is the
simple mean of the benchmark samples of the `(i+1)`-record prefix, where the
sample of a date is the first NON-NULL day benchmark observed for it (a zero
day benchmark IS counted, contributing 0), and null when no sample exists. -/
theorem claim_C2_benchmark (side : Side) (rs : List RawStockRecord) (i : ℕ) (e : StockRecord)
    (he : enrichAt side rs i = some e) :
    e.cumulativeBenchmarkVWAP = samplesMean (rs.take (i + 1)) := by
  rw [enrichAt_benchmark he, mkMean_foldBench_init]

/-- Claim C2 witness: on a single record with day VWAP 100, the stored
benchmark is the one-sample mean. -/
theorem claim_C2_benchmark_witness :
    (processRecord Side.BUY initState recA).2.cumulativeBenchmarkVWAP
      = samplesMean ([recA].take (0 + 1)) :=
  claim_C2_benchmark Side.BUY [recA] 0 _ rfl

/-- Claim C2 counterexample: a single record whose day benchmark is exactly 0
is counted as a benchmark sample by the code (the stored cumulative benchmark
is 0), while the claim's null-or-zero exclusion policy would report null. -/
theorem claim_C2_counterexample :
    (enrichAt Side.BUY [recZeroVwap] 0).map StockRecord.cumulativeBenchmarkVWAP
        = some (some 0) ∧
    claimBenchmarkC2 [recZeroVwap] = none := by
  constructor
  · simp [enrichAt, processAll, processRecord, mkMean, observeBenchmark, initState,
      initBench, recZeroVwap]
  · simp [claimBenchmarkC2, claimSamplesC2, recZeroVwap]

/-- Claim C3 as amended: every duplicate record (like every record) still adds
its fill quantity and notional to the cumulative totals — the stored
cumulatives are the full prefix sums — while the benchmark accumulator is
left completely unchanged by any record whose date already holds a sample,
and the sample of a date is installed by its first occurrence carrying a
non-null day benchmark (not necessarily the first occurrence outright). -/
theorem claim_C3_duplicates :
    (∀ (side : Side) (rs : List RawStockRecord) (i : ℕ) (e : StockRecord),
      enrichAt side rs i = some e →
        e.cumulativeFilledQty = ((rs.take (i + 1)).map fun r => r.filledQty.getD 0).sum ∧
        e.cumulativeFilledAmount = ((rs.take (i + 1)).map dailyFilledAmount).sum) ∧
    (∀ (side : Side) (st : ProcState) (r : RawStockRecord),
      r.date ∈ st.bench.seenDates →
        (stepState side st r).bench = st.bench ∧
        (stepState side st r).cumQty = st.cumQty + r.filledQty.getD 0 ∧
        (stepState side st r).cumAmount = st.cumAmount + dailyFilledAmount r) ∧
    (∀ (side : Side) (st : ProcState) (r : RawStockRecord) (v : ℚ),
      r.date ∉ st.bench.seenDates → r.allDayVWAP = some v →
        (stepState side st r).bench.sum = st.bench.sum + v ∧
        (stepState side st r).bench.count = st.bench.count + 1) := by
  refine ⟨fun side rs i e he => enrichAt_cumulative he, ?_, ?_⟩
  · intro side st r hmem
    refine ⟨?_, stepState_cumQty side st r, stepState_cumAmount side st r⟩
    rw [stepState_bench]
    simp [observeBenchmark, hmem]
  · intro side st r v hmem hv
    rw [stepState_bench]
    simp [observeBenchmark, hmem, hv]

/-- Claim C3 witness: in the duplicated-date pair, the second occurrence still
pushes the cumulative quantity to the full prefix sum, and a step on an
already-sampled date leaves the benchmark state untouched. -/
theorem claim_C3_duplicates_witness :
    (processRecord Side.BUY (stepState Side.BUY initState recDupNull) recDupVal).2.cumulativeFilledQty
      = (([recDupNull, recDupVal].take (1 + 1)).map fun r => r.filledQty.getD 0).sum ∧
    (stepState Side.BUY ⟨⟨["2024/01/01"], 5, 1⟩, 0, 0⟩ recDupVal).bench
      = (⟨["2024/01/01"], 5, 1⟩ : BenchState) := by
  constructor
  · exact (claim_C3_duplicates.1 Side.BUY [recDupNull, recDupVal] 1 _ rfl).1
  · exact (claim_C3_duplicates.2.1 Side.BUY ⟨⟨["2024/01/01"], 5, 1⟩, 0, 0⟩ recDupVal
      (by decide)).1

/-- Claim C3 counterexample: with two records on the same date, the first
carrying a NULL day benchmark and the second carrying 5, the code takes 5 as
the day's benchmark sample (the stored cumulative benchmark is 5), whereas
the claim's first-occurrence-wins policy would leave the benchmark null. -/
theorem claim_C3_counterexample :
    (enrichAt Side.BUY [recDupNull, recDupVal] 1).map StockRecord.cumulativeBenchmarkVWAP
        = some (some 5) ∧
    firstOccBenchmark [recDupNull, recDupVal] = none := by
  constructor
  · simp [enrichAt, processAll, processRecord, stepState, mkMean, observeBenchmark,
      initState, initBench, recDupNull, recDupVal]
  · simp [firstOccBenchmark, firstOccSamples, recDupNull, recDupVal]

/-- Claim C5: under the data-model preconditions (non-negative fill quantity
and price on every record), the cumulative filled quantity and amount are
non-decreasing from each enriched record to the next. -/
theorem claim_C5_monotone (side : Side) (rs : List RawStockRecord)
    (h : ∀ r ∈ rs, 0 ≤ r.filledQty.getD 0 ∧ 0 ≤ r.filledAveragePrice.getD 0)
    (i : ℕ) (e e' : StockRecord)
    (he : enrichAt side rs i = some e) (he' : enrichAt side rs (i + 1) = some e') :
    e.cumulativeFilledQty ≤ e'.cumulativeFilledQty ∧
    e.cumulativeFilledAmount ≤ e'.cumulativeFilledAmount := by
  obtain ⟨r', hr', _⟩ := enrichAt_eq_some he'
  have hc := enrichAt_cumulative he
  have hc' := enrichAt_cumulative he'
  have htake : rs.take (i + 1 + 1) = rs.take (i + 1) ++ [r'] := by
    rw [List.take_succ, ← List.get?_eq_getElem?, hr']; rfl
  have hrmem : r' ∈ rs := by
    have := List.get?_eq_some.mp hr'
    obtain ⟨hn, hget⟩ := this
    exact hget ▸ List.get_mem rs _ _
  constructor
  · rw [hc.1, hc'.1, htake]
    simp only [List.map_append, List.sum_append, List.map_cons, List.map_nil,
      List.sum_cons, List.sum_nil]
    have := (h r' hrmem).1
    linarith
  · rw [hc.2, hc'.2, htake]
    simp only [List.map_append, List.sum_append, List.map_cons, List.map_nil,
      List.sum_cons, List.sum_nil]
    have := dailyFilledAmount_nonneg r' (h r' hrmem).1 (h r' hrmem).2
    linarith

/-- Claim C5 witness: on the two-record sample list the cumulatives are
non-decreasing between day 1 and day 2. -/
theorem claim_C5_monotone_witness :
    (processRecord Side.BUY initState recA).2.cumulativeFilledQty
      ≤ (processRecord Side.BUY (stepState Side.BUY initState recA) recB).2.cumulativeFilledQty ∧
    (processRecord Side.BUY initState recA).2.cumulativeFilledAmount
      ≤ (processRecord Side.BUY (stepState Side.BUY initState recA) recB).2.cumulativeFilledAmount :=
  claim_C5_monotone Side.BUY [recA, recB] (by decide) 0 _ _ rfl rfl

/-- Claim C10: once some enriched record's cumulative benchmark VWAP is
non-null, it is non-null at every later index — the distinct-day count of the
single left-to-right pass never decreases. -/
theorem claim_C10_benchmark_persists (side : Side) (rs : List RawStockRecord)
    (i j : ℕ) (hij : i ≤ j) (e e' : StockRecord)
    (he : enrichAt side rs i = some e) (he' : enrichAt side rs j = some e')
    (hne : e.cumulativeBenchmarkVWAP ≠ none) :
    e'.cumulativeBenchmarkVWAP ≠ none := by
  rw [enrichAt_benchmark he] at hne
  rw [enrichAt_benchmark he']
  have hi : 0 < (foldBench initBench (rs.take (i + 1))).count := by
    by_contra hcount
    rw [mkMean, if_neg hcount] at hne
    exact hne rfl
  have hsplit : rs.take (j + 1) = rs.take (i + 1) ++ ((rs.drop (i + 1)).take (j - i)) := by
    rw [← List.take_add]
    congr 1
    omega
  have hmono : (foldBench initBench (rs.take (i + 1))).count
      ≤ (foldBench initBench (rs.take (j + 1))).count := by
    rw [hsplit, foldBench_append]
    exact foldBench_count_le _ _
  rw [mkMean, if_pos (lt_of_lt_of_le hi hmono)]
  simp

theorem futureLoop_shares (p spd : ℚ) (hspd : 0 < spd) :
    ∀ (n : ℕ) (st : SimState), 0 ≤ st.remaining → st.remaining ≤ spd * n →
      (futureLoop p spd n st).shares = st.shares + st.remaining := by
  intro n
  induction n with
  | zero =>
    intro st h0 hle
    have hr : st.remaining = 0 := le_antisymm (by simpa using hle) h0
    rw [futureLoop, hr, add_zero]
  | succ n ih =>
    intro st h0 hle
    rcases eq_or_lt_of_le h0 with heq | hlt
    · have hmin : min spd st.remaining ≤ 0 := by
        rw [← heq]
        exact min_le_right _ _
      simp only [futureLoop]
      rw [if_pos hmin, ← heq, add_zero]
    · have hmin : 0 < min spd st.remaining := lt_min hspd hlt
      simp only [futureLoop]
      rw [if_neg (not_le.mpr hmin)]
      have h0' : 0 ≤ st.remaining - min spd st.remaining := by
        have := min_le_right spd st.remaining
        linarith
      have hle' : st.remaining - min spd st.remaining ≤ spd * n := by
        rcases le_total spd st.remaining with hc | hc
        · rw [min_eq_left hc]
          have hcast : st.remaining ≤ spd * (n + 1 : ℕ) := hle
          push_cast at hcast
          linarith
        · rw [min_eq_right hc]
          have : (0:ℚ) ≤ spd * n := by positivity
          linarith
      have h := ih ⟨st.shares + min spd st.remaining, st.amount + p * min spd st.remaining,
        st.vwaps ++ [p], st.remaining - min spd st.remaining⟩ h0' hle'
      rw [h]
      show st.shares + min spd st.remaining + (st.remaining - min spd st.remaining)
        = st.shares + st.remaining
      ring

/-- Claim C4 as amended: in spread-to-completion mode with positive price,
volume and day count, the reported sharesPerDay is `ceil(volume / days)`, and
the day loop ends with exactly `base + volume` cumulative shares — each day
trades `min(sharesPerDay, remaining)`, so the total simulated volume is the
volume input and the last day trades only the remainder left after the
earlier full-sized days (for volume 101 over 4 days: 26, 26, 26, then 23). -/
theorem claim_C4_spread (side : Side) (hist : List (Option ℚ)) (totQ totA : Option ℚ)
    (p v : ℚ) (d : ℤ) (hp : 0 < p) (hv : 0 < v) (hd : 0 < d) :
    (calculateFutureScenario side hist totQ totA p v d).map FutureScenario.sharesPerDay
      = some ((⌈v / (d : ℚ)⌉ : ℤ) : ℚ) ∧
    (futureLoop p ((⌈v / (d : ℚ)⌉ : ℤ) : ℚ) d.toNat
        ⟨totQ.getD 0, totA.getD 0, hist.filterMap id, v⟩).shares = totQ.getD 0 + v := by
  have hdq : (0:ℚ) < (d : ℚ) := by exact_mod_cast hd
  have hceil : (0:ℤ) < ⌈v / (d : ℚ)⌉ := Int.ceil_pos.mpr (div_pos hv hdq)
  have hspd : (0:ℚ) < ((⌈v / (d : ℚ)⌉ : ℤ) : ℚ) := by exact_mod_cast hceil
  have hguard : ¬(p ≤ 0 ∨ v ≤ 0 ∨ d ≤ 0) := by
    push_neg
    exact ⟨hp, hv, hd⟩
  constructor
  · rw [calculateFutureScenario, if_neg hguard]
    rfl
  · have h2 : ((d.toNat : ℕ) : ℚ) = (d : ℚ) := by
      exact_mod_cast Int.toNat_of_nonneg hd.le
    have hle : v ≤ ((⌈v / (d : ℚ)⌉ : ℤ) : ℚ) * (d.toNat : ℚ) := by
      have h1 : v / (d : ℚ) ≤ ((⌈v / (d : ℚ)⌉ : ℤ) : ℚ) := Int.le_ceil _
      rw [h2, div_le_iff hdq] at *
      nlinarith [Int.le_ceil (v / (d : ℚ))]
    exact futureLoop_shares p _ hspd d.toNat _ hv.le hle

/-- Claim C4 witness: volume 101 over 4 days gives sharesPerDay 26 and a
simulated total of exactly 101 shares. -/
theorem claim_C4_spread_witness :
    (0:ℚ) < 101 ∧
    ((⌈(101:ℚ) / ((4:ℤ) : ℚ)⌉ : ℤ) : ℚ) = 26 ∧
    (calculateFutureScenario Side.SELL [] none none 50 101 4).map FutureScenario.sharesPerDay
      = some ((⌈(101:ℚ) / ((4:ℤ) : ℚ)⌉ : ℤ) : ℚ) ∧
    (futureLoop 50 ((⌈(101:ℚ) / ((4:ℤ) : ℚ)⌉ : ℤ) : ℚ) (4:ℤ).toNat
        ⟨(none : Option ℚ).getD 0, (none : Option ℚ).getD 0,
         ([] : List (Option ℚ)).filterMap id, 101⟩).shares
      = (none : Option ℚ).getD 0 + 101 := by
  have h := claim_C4_spread Side.SELL [] none none 50 101 4
    (by norm_num) (by norm_num) (by norm_num)
  have hc : (⌈(101:ℚ) / ((4:ℤ) : ℚ)⌉ : ℤ) = 26 := by
    rw [show (((4:ℤ)) : ℚ) = 4 by norm_num, Int.ceil_eq_iff] <;> norm_num
  exact ⟨by norm_num, by exact_mod_cast hc, h.1, h.2⟩

/-- Claim C4 counterexample: with volumeInput 101 over 4 days the code's
sharesPerDay is 26; after the first three simulated days 23 shares remain,
and the fourth (last) day trades exactly those 23 shares (the run totals
101), so the last day trades a 23-share remainder — not the 1-share
remainder asserted by the claim's worked example. -/
theorem claim_C4_counterexample :
    (calculateFutureScenario Side.SELL [] none none 50 101 4).map FutureScenario.sharesPerDay
      = some 26 ∧
    futureLoop 50 26 3 ⟨0, 0, [], 101⟩ = ⟨78, 3900, [50, 50, 50], 23⟩ ∧
    futureLoop 50 26 4 ⟨0, 0, [], 101⟩ = ⟨101, 5050, [50, 50, 50, 50], 0⟩ ∧
    (futureLoop 50 26 4 ⟨0, 0, [], 101⟩).shares
      - (futureLoop 50 26 3 ⟨0, 0, [], 101⟩).shares = 23 ∧
    (23 : ℚ) ≠ 1 := by
  have h3 : futureLoop 50 26 3 ⟨0, 0, [], (101:ℚ)⟩ = ⟨78, 3900, [50, 50, 50], 23⟩ := by
    show futureLoop 50 26 (0 + 1 + 1 + 1) ⟨0, 0, [], 101⟩ = ⟨78, 3900, [50, 50, 50], 23⟩
    simp only [futureLoop]
    norm_num [min_def]
  have h4 : futureLoop 50 26 4 ⟨0, 0, [], (101:ℚ)⟩ = ⟨101, 5050, [50, 50, 50, 50], 0⟩ := by
    show futureLoop 50 26 (0 + 1 + 1 + 1 + 1) ⟨0, 0, [], 101⟩
      = ⟨101, 5050, [50, 50, 50, 50], 0⟩
    simp only [futureLoop]
    norm_num [min_def]
  refine ⟨?_, h3, h4, ?_, by norm_num⟩
  · rw [calculateFutureScenario, if_neg (by norm_num)]
    show some ((⌈(101:ℚ) / ((4:ℤ) : ℚ)⌉ : ℤ) : ℚ) = some 26
    have hc : (⌈(101:ℚ) / ((4:ℤ) : ℚ)⌉ : ℤ) = 26 := by
      rw [show (((4:ℤ)) : ℚ) = 4 by norm_num, Int.ceil_eq_iff]
      norm_num
    rw [hc]
    norm_num
  · rw [h3, h4]
    norm_num

theorem clampPct_nonneg (x : ℚ) : 0 ≤ clampPct x :=
  le_min (by norm_num) (le_max_left 0 x)

theorem clampPct_le_100 (x : ℚ) : clampPct x ≤ 100 := min_le_left _ _

theorem clampPct_zero : clampPct 0 = 0 := by norm_num [clampPct]

theorem round2_nonneg {x : ℚ} (hx : 0 ≤ x) : 0 ≤ round2 x := by
  rw [round2]
  apply div_nonneg _ (by norm_num)
  have h : (0:ℤ) ≤ round (x * 100) := by
    rw [round_eq]
    apply Int.le_floor.mpr
    push_cast
    nlinarith
  exact_mod_cast h

theorem round2_le_100 {x : ℚ} (hx : x ≤ 100) : round2 x ≤ 100 := by
  rw [round2, div_le_iff (by norm_num : (0:ℚ) < 100)]
  have h : round (x * 100) ≤ 10000 := by
    rw [round_eq]
    calc ⌊x * 100 + 1 / 2⌋ ≤ ⌊(10000:ℚ) + 1 / 2⌋ := Int.floor_le_floor (by linarith)
      _ = 10000 := by
        rw [Int.floor_eq_iff]
        norm_num
  calc ((round (x * 100) : ℤ) : ℚ) ≤ ((10000 : ℤ) : ℚ) := by exact_mod_cast h
    _ = 100 * 100 := by norm_num

theorem round2_zero : round2 0 = 0 := by
  norm_num [round2]

theorem round2_ite_clamp_bounds (c : Prop) [Decidable c] (y : ℚ) :
    0 ≤ round2 (if c then clampPct y else 0) ∧ round2 (if c then clampPct y else 0) ≤ 100 := by
  by_cases h : c
  · rw [if_pos h]
    exact ⟨round2_nonneg (clampPct_nonneg _), round2_le_100 (clampPct_le_100 _)⟩
  · rw [if_neg h, round2_zero]
    norm_num

theorem round2_ite_zero {c : Prop} [Decidable c] (y : ℚ) (h : ¬c) :
    round2 (if c then clampPct y else 0) = 0 := by
  rw [if_neg h]
  exact round2_zero

theorem specExecutionDispatch_zero (cfg : ProjectConfig) :
    specExecutionDispatch cfg 0 0 = 0 := by
  rcases cfg with ⟨side, tsh, tam, bd, ed, pf, ff⟩
  cases side with
  | SELL =>
    cases tsh with
    | none => rfl
    | some ts =>
      show (if 0 < ts then clampPct (0 / ts * 100) else 0) = 0
      by_cases hts : 0 < ts
      · rw [if_pos hts, show (0:ℚ) / ts * 100 = 0 by ring, clampPct_zero]
      · rw [if_neg hts]
  | BUY =>
    cases tam with
    | none => rfl
    | some ta =>
      show (if 0 < ta then clampPct (0 / ta * 100) else 0) = 0
      by_cases hta : 0 < ta
      · rw [if_pos hta, show (0:ℚ) / ta * 100 = 0 by ring, clampPct_zero]
      · rw [if_neg hta]

/-- Claim C6: both summary progress percentages always lie in [0,100]
(overfill included), daysProgress is 0 when the business-day horizon is
absent or non-positive, and executionProgress equals the side-dependent
dispatch of the claim (applied to the summary's own totals, rounded once at
the boundary). -/
theorem claim_C6_progress (cfg : ProjectConfig) (rs : List RawStockRecord) :
    (0 ≤ (buildSummary cfg rs).daysProgress ∧ (buildSummary cfg rs).daysProgress ≤ 100) ∧
    (0 ≤ (buildSummary cfg rs).executionProgress ∧
      (buildSummary cfg rs).executionProgress ≤ 100) ∧
    ((cfg.businessDays = none ∨ ∃ bd, cfg.businessDays = some bd ∧ bd ≤ 0) →
      (buildSummary cfg rs).daysProgress = 0) ∧
    (buildSummary cfg rs).executionProgress
      = round2 (specExecutionDispatch cfg (buildSummary cfg rs).totalFilledQty
          (buildSummary cfg rs).totalFilledAmount) := by
  have hdp : (buildSummary cfg rs).daysProgress
      = round2 (match cfg.businessDays with
        | some bd => if 0 < bd
            then clampPct
              (((procFold cfg.side initState rs).bench.seenDates.length : ℚ) / bd * 100)
            else 0
        | none => 0) := rfl
  have hep : (buildSummary cfg rs).executionProgress
      = round2 (if 0 < (processAll cfg.side initState rs).length then
          clampPct
            (match cfg.side with
             | Side.SELL =>
               match cfg.totalShares with
               | some ts => if 0 < ts
                   then (procFold cfg.side initState rs).cumQty / ts * 100 else 0
               | none => 0
             | Side.BUY =>
               match cfg.totalAmount with
               | some ta => if 0 < ta
                   then (procFold cfg.side initState rs).cumAmount / ta * 100 else 0
               | none => 0)
        else 0) := rfl
  have htq : (buildSummary cfg rs).totalFilledQty = (procFold cfg.side initState rs).cumQty := rfl
  have hta : (buildSummary cfg rs).totalFilledAmount
      = (procFold cfg.side initState rs).cumAmount := rfl
  refine ⟨?_, ?_, ?_, ?_⟩
  · rw [hdp]
    cases cfg.businessDays with
    | none =>
      rw [round2_zero]
      norm_num
    | some bd => exact round2_ite_clamp_bounds _ _
  · rw [hep]
    by_cases hlen : 0 < (processAll cfg.side initState rs).length
    · rw [if_pos hlen]
      exact ⟨round2_nonneg (clampPct_nonneg _), round2_le_100 (clampPct_le_100 _)⟩
    · rw [if_neg hlen]
      rw [round2_zero]
      norm_num
  · intro hbd
    rw [hdp]
    rcases hbd with hnone | ⟨bd, hsome, hle⟩
    · rw [hnone, round2_zero]
    · rw [hsome]
      exact round2_ite_zero _ (not_lt.mpr hle)
  · rw [hep, htq, hta]
    by_cases hlen : 0 < (processAll cfg.side initState rs).length
    · rw [if_pos hlen]
      congr 1
      rcases cfg with ⟨side, tsh, tam, bd, ed, pf, ff⟩
      cases side with
      | SELL =>
        cases tsh with
        | none =>
          show clampPct 0 = 0
          exact clampPct_zero
        | some ts =>
          show clampPct (if 0 < ts then _ / ts * 100 else 0)
            = if 0 < ts then clampPct (_ / ts * 100) else 0
          by_cases hts : 0 < ts
          · rw [if_pos hts, if_pos hts]
          · rw [if_neg hts, if_neg hts, clampPct_zero]
      | BUY =>
        cases tam with
        | none =>
          show clampPct 0 = 0
          exact clampPct_zero
        | some ta =>
          show clampPct (if 0 < ta then _ / ta * 100 else 0)
            = if 0 < ta then clampPct (_ / ta * 100) else 0
          by_cases hta2 : 0 < ta
          · rw [if_pos hta2, if_pos hta2]
          · rw [if_neg hta2, if_neg hta2, clampPct_zero]
    · rw [if_neg hlen]
      have hrs : rs = [] := by
        have hl := processAll_length cfg.side rs initState
        have h0 : rs.length = 0 := by omega
        exact List.length_eq_zero.mp h0
      subst hrs
      have hq0 : (procFold cfg.side initState []).cumQty = 0 := rfl
      have ha0 : (procFold cfg.side initState []).cumAmount = 0 := rfl
      rw [hq0, ha0, specExecutionDispatch_zero]

/-- Claim C6 witness: with no business-day horizon and a SELL target of 10
shares overfilled to 15, daysProgress is 0 and executionProgress is clamped
into [0,100] and equals the dispatch value. -/
theorem claim_C6_progress_witness :
    (buildSummary cfgSell10 [recA, recB]).daysProgress = 0 ∧
    (0 ≤ (buildSummary cfgSell10 [recA, recB]).executionProgress ∧
      (buildSummary cfgSell10 [recA, recB]).executionProgress ≤ 100) ∧
    (buildSummary cfgSell10 [recA, recB]).executionProgress
      = round2 (specExecutionDispatch cfgSell10
          (buildSummary cfgSell10 [recA, recB]).totalFilledQty
          (buildSummary cfgSell10 [recA, recB]).totalFilledAmount) := by
  have h := claim_C6_progress cfgSell10 [recA, recB]
  exact ⟨h.2.2.1 (Or.inl rfl), h.2.1, h.2.2.2⟩

/-- Claim C7 as amended: the BUY and SELL performance-bps formulas are as
specified, null exactly when price or benchmark is null or the benchmark is
zero, and of equal magnitude and opposite sign for identical inputs; at
benchmark 100 and fill price 99 the values are exactly +100 and −100 bps
(not ±100.99...). -/
theorem claim_C7_sign (p b : ℚ) (hb : b ≠ 0) :
    vwapPerfBps Side.BUY (some p) (some b) = some ((b - p) / b * 10000) ∧
    vwapPerfBps Side.SELL (some p) (some b) = some ((p - b) / b * 10000) ∧
    vwapPerfBps Side.SELL (some p) (some b)
      = (vwapPerfBps Side.BUY (some p) (some b)).map (fun x => -x) ∧
    (∀ (side : Side) (q : Option ℚ), vwapPerfBps side none q = none) ∧
    (∀ (side : Side) (q : Option ℚ), vwapPerfBps side q none = none) ∧
    (∀ (side : Side) (q : ℚ), vwapPerfBps side (some q) (some 0) = none) ∧
    vwapPerfBps Side.BUY (some 99) (some 100) = some 100 ∧
    vwapPerfBps Side.SELL (some 99) (some 100) = some (-100) := by
  refine ⟨?_, ?_, ?_, ?_, ?_, ?_, ?_, ?_⟩
  · simp [vwapPerfBps, hb]
  · simp [vwapPerfBps, hb]
  · simp only [vwapPerfBps, if_pos hb]
    show some ((p - b) / b * 10000) = some (-((b - p) / b * 10000))
    exact congrArg some (by ring)
  · intro side q
    cases q <;> cases side <;> rfl
  · intro side q
    cases q <;> cases side <;> rfl
  · intro side q
    cases side <;> simp [vwapPerfBps]
  · norm_num [vwapPerfBps]
  · norm_num [vwapPerfBps]

/-- Claim C7 witness: at benchmark 100 and fill price 99, BUY is +100 bps
and SELL is −100 bps. -/
theorem claim_C7_sign_witness :
    (100:ℚ) ≠ 0 ∧ vwapPerfBps Side.BUY (some 99) (some 100) = some 100 ∧
    vwapPerfBps Side.SELL (some 99) (some 100) = some (-100) :=
  ⟨by norm_num, (claim_C7_sign 99 100 (by norm_num)).2.2.2.2.2.2.1,
    (claim_C7_sign 99 100 (by norm_num)).2.2.2.2.2.2.2⟩

/-- Claim C7 counterexample: at benchmark 100 and fill price 99 the BUY value
is exactly 100 bps, strictly below the claimed 100.99..., so the claim's
concrete example is wrong. -/
theorem claim_C7_counterexample :
    vwapPerfBps Side.BUY (some 99) (some 100) = some 100 ∧
    ¬ ((10099 / 100 : ℚ) ≤ 100) := by
  constructor
  · norm_num [vwapPerfBps]
  · norm_num

/-- Claim C8: with a present, non-negative fee rate, the per-row performance
fee is `max(P&L, 0) × rate/100`, is 0 for non-positive P&L, and is never
negative (for any inputs whose rate, when present, is non-negative). -/
theorem claim_C8_fee (pl rate : ℚ) (hr : 0 ≤ rate) :
    performanceFeeAmount (some pl) (some rate) = max pl 0 * (rate / 100) ∧
    (pl ≤ 0 → performanceFeeAmount (some pl) (some rate) = 0) ∧
    0 ≤ performanceFeeAmount (some pl) (some rate) ∧
    (∀ plOpt rateOpt : Option ℚ, (∀ x, rateOpt = some x → 0 ≤ x) →
      0 ≤ performanceFeeAmount plOpt rateOpt) := by
  have hmain : performanceFeeAmount (some pl) (some rate) = max pl 0 * (rate / 100) := by
    rw [performanceFeeAmount]
    by_cases hpl : 0 < pl
    · rw [if_pos hpl, max_eq_left hpl.le]
    · rw [if_neg hpl, max_eq_right (not_lt.mp hpl)]
      ring
  refine ⟨hmain, ?_, ?_, ?_⟩
  · intro hple
    rw [hmain, max_eq_right hple]
    ring
  · rw [hmain]
    exact mul_nonneg (le_max_right _ _) (by positivity)
  · intro plOpt rateOpt hro
    cases plOpt with
    | none => cases rateOpt <;> norm_num [performanceFeeAmount]
    | some pl2 =>
      cases rateOpt with
      | none => norm_num [performanceFeeAmount]
      | some r2 =>
        have hr2 := hro r2 rfl
        rw [performanceFeeAmount]
        by_cases hpl2 : 0 < pl2
        · rw [if_pos hpl2]
          exact mul_nonneg hpl2.le (by positivity)
        · rw [if_neg hpl2]

/-- Claim C8 witness: rate 20% on a P&L of −5 yields a fee of exactly 0,
which is the max-with-zero formula value and non-negative. -/
theorem claim_C8_fee_witness :
    (0:ℚ) ≤ 20 ∧
    performanceFeeAmount (some (-5)) (some 20) = max (-5) 0 * (20 / 100) ∧
    performanceFeeAmount (some (-5)) (some 20) = 0 ∧
    0 ≤ performanceFeeAmount (some (-5)) (some 20) := by
  have h := claim_C8_fee (-5) 20 (by norm_num)
  exact ⟨by norm_num, h.1, h.2.1 (by norm_num), h.2.2.1⟩

/-- Claim C9: whenever any scenario input is missing (NaN) or non-positive,
both scenario builders return the empty projection list, and both per-day
scenario functions return none on non-positive inputs — no exception or
partial result. -/
theorem claim_C9_guards (side : Side) (hist : List (Option ℚ)) (totQ totA : Option ℚ)
    (price shares : Option ℚ) (days : Option ℤ)
    (h : ∀ (p s : ℚ) (d : ℤ), price = some p → shares = some s → days = some d →
      p ≤ 0 ∨ s ≤ 0 ∨ d ≤ 0) :
    buildFutureScenarios side hist totQ totA price shares days = [] ∧
    buildFixedVolumeScenarios side hist totQ totA price shares days = [] ∧
    (∀ (p s : ℚ) (d : ℤ), p ≤ 0 ∨ s ≤ 0 ∨ d ≤ 0 →
      calculateFutureScenario side hist totQ totA p s d = none ∧
      calculateFixedVolumeScenario side hist totQ totA p s d = none) := by
  refine ⟨?_, ?_, ?_⟩
  · cases price with
    | none => rfl
    | some p =>
      cases shares with
      | none => rfl
      | some s =>
        cases days with
        | none => rfl
        | some d =>
          have hle := h p s d rfl rfl rfl
          have hneg : ¬(0 < p ∧ 0 < s ∧ 0 < d) := by
            rintro ⟨h1, h2, h3⟩
            rcases hle with h4 | h4 | h4 <;> [exact absurd h1 (not_lt.mpr h4);
              exact absurd h2 (not_lt.mpr h4); exact absurd h3 (not_lt.mpr h4)]
          rw [buildFutureScenarios, if_neg hneg]
  · cases price with
    | none => rfl
    | some p =>
      cases shares with
      | none => rfl
      | some s =>
        cases days with
        | none => rfl
        | some d =>
          have hle := h p s d rfl rfl rfl
          have hneg : ¬(0 < p ∧ 0 < s ∧ 0 < d) := by
            rintro ⟨h1, h2, h3⟩
            rcases hle with h4 | h4 | h4 <;> [exact absurd h1 (not_lt.mpr h4);
              exact absurd h2 (not_lt.mpr h4); exact absurd h3 (not_lt.mpr h4)]
          rw [buildFixedVolumeScenarios, if_neg hneg]
  · intro p s d hle
    exact ⟨by rw [calculateFutureScenario, if_pos hle],
      by rw [calculateFixedVolumeScenario, if_pos hle]⟩

/-- Claim C9 witness: a zero future price yields empty projection lists and
none from both per-day scenario functions. -/
theorem claim_C9_guards_witness :
    buildFutureScenarios Side.BUY [] none none (some 0) (some 5) (some 3) = [] ∧
    buildFixedVolumeScenarios Side.BUY [] none none (some 0) (some 5) (some 3) = [] ∧
    calculateFutureScenario Side.BUY [] none none 0 5 3 = none ∧
    calculateFixedVolumeScenario Side.BUY [] none none 0 5 3 = none := by
  have h := claim_C9_guards Side.BUY [] none none (some 0) (some 5) (some 3)
    (by
      intro p s d hp hs hd
      injection hp with hp2
      exact Or.inl (le_of_eq hp2.symm))
  exact ⟨h.1, h.2.1, (h.2.2 0 5 3 (Or.inl le_rfl)).1, (h.2.2 0 5 3 (Or.inl le_rfl)).2⟩

/-- Claim C10 witness: on the two-record sample list, the benchmark is
non-null on day 1 and therefore also on day 2. -/
theorem claim_C10_benchmark_persists_witness :
    (processRecord Side.BUY (stepState Side.BUY initState recA) recB).2.cumulativeBenchmarkVWAP
      ≠ none :=
  claim_C10_benchmark_persists Side.BUY [recA, recB] 0 1 (by norm_num) _ _ rfl rfl
    (by
      rw [(processRecord_fields Side.BUY initState recA).2.2.1]
      simp [mkMean, observeBenchmark, initState, initBench, recA])

end AlphaDashboard
